import Mathlib

/-!
Shallow embedding of the ink! smart contract in
`src/secure_transaction_system/lib.rs` (module `payment_contract`), and proofs
about its payment lifecycle state machine.

Modelling conventions:

* Machine integers are `Nat` with explicit wraparound (`% 2 ^ 32`, `% 2 ^ 64`,
  carry checks against `2 ^ 8`) exactly where the source uses wrapping or
  checked arithmetic.  `AccountId`, `Balance` (u128), `Timestamp` (u64) and
  `Hash` are opaque-enough as `Nat`.
* External collaborators supplied by the execution environment (caller
  identity, transferred value, block timestamp, the Keccak-256 and SHA2-256
  digest functions) are inputs: per-call data in `Env`, the two digest
  functions in `ExtEnv`.  The digest functions are abstract, which is faithful
  to their role as environment-provided primitives; concrete instantiations
  are used for concrete executions.
* The storage `Mapping` is an association list with the ink! semantics:
  `insert` stores unconditionally and reports whether the key was present
  before, `get` reads, `remove` deletes.
* Messages are modelled at source-statement level: a message returns its
  `Result` value and its effects (storage writes, fund transfers, emitted
  events) as data in an `Outcome`.  A call that panics (the `unwrap` of the
  overflow-checked addition inside `is_expired`, or the `unwrap` in the view
  messages) is modelled as `none`; for multi-call traces a panicking call
  leaves the state unchanged.  `self.env().transfer(..).unwrap()` is modelled
  as an always-recorded transfer, matching the source's unconditional unwrap.
* `view_payment_expiry_time` uses plain `Add::add` on u64 in the source; it is
  modelled with release-profile (wrapping) semantics, `% 2 ^ 64`.
-/

namespace SecureTransactionSystem

/-- AccountId from the ink! environment, abstracted as a natural number. -/
abbrev AccountId : Type := Nat

/-- Balance (u128) from the ink! environment. -/
abbrev Balance : Type := Nat

/-- Timestamp (u64, milliseconds) from the ink! environment. -/
abbrev Timestamp : Type := Nat

/-- Hash (32-byte digest) from the ink! environment, abstracted as a value. -/
abbrev TxHash : Type := Nat

/-- Source constant `ATTEMPTS_LIMIT: u8 = 3`. -/
def ATTEMPTS_LIMIT : Nat := 3

/-- Source enum `PaymentStatus`. -/
inductive PaymentStatus : Type where
  | Expired
  | Waiting
  | AllAttemptsFailed
  | Success
  | Refunded
deriving DecidableEq

/-- Source struct `PaymentInfo`. -/
structure PaymentInfo : Type where
  sender : AccountId
  receiver : AccountId
  amount : Balance
  otp : Nat
  otp_attempts : Nat
  recorded_time : Timestamp
  status : PaymentStatus
deriving DecidableEq

/-- Source enum `Error` (the variants actually used by the contract plus the
declared ones). -/
inductive Error : Type where
  | BalanceMismatch
  | TimeLimitExceeded
  | InvalidReceiver
  | InvalidSender
  | WrongOTP
  | AttemptsExceedLimit
  | TxnIDAlreadExists
  | PaymentRecordMissing
  | NotAllowed
  | IncorrectREFUND
  | Overflow
  | InvalidCaller
  | BelowThresholdValue
  | AlreadyReceivedPayment
  | ZeroBalance
deriving DecidableEq

/-- Return value of a message: `Result<(), Error>` from the source. -/
inductive CallResult : Type where
  | ok
  | err (e : Error)
deriving DecidableEq

/-- Source events `SecurePaymentRequested` and `SecurePaymentInfo`. -/
inductive Event : Type where
  | SecurePaymentRequested (sender receiver : AccountId) (amount : Balance)
      (payment_id : TxHash) (otp : Nat)
  | SecurePaymentInfo (sender receiver : AccountId) (amount : Balance)
      (payment_id : TxHash) (status : PaymentStatus)
deriving DecidableEq

/-- Source storage struct `PaymentContract`. -/
structure PaymentContract : Type where
  payment_records : List (TxHash × PaymentInfo)
  threshold_value : Balance
  admin : AccountId
  expiry_time : Timestamp
  salt : Nat
deriving DecidableEq

/-- Per-call data supplied by the execution environment. -/
structure Env : Type where
  caller : AccountId
  transferred_value : Balance
  block_timestamp : Timestamp
deriving DecidableEq

/-- Environment-provided digest primitives: `hash_bytes::<Keccak256>` as the
32 output bytes of an input byte list, and `hash_encoded::<Sha2x256>` of a
`PaymentInfo` (the SCALE encoding composed with SHA2-256) as an abstract
content-hash function on records. -/
structure ExtEnv : Type where
  keccak256 : List Nat → Fin 32 → Fin 256
  sha2_256 : PaymentInfo → TxHash

/-- Effects of one message call: its returned `Result`, the post-call storage,
the fund transfers performed via `self.env().transfer`, and the emitted
events, in order. -/
structure Outcome : Type where
  result : CallResult
  state : PaymentContract
  transfers : List (AccountId × Balance)
  events : List Event
deriving DecidableEq

/-- Read a key from the storage mapping (`Mapping::get`). -/
def mapGet (m : List (TxHash × PaymentInfo)) (k : TxHash) : Option PaymentInfo :=
  match m with
  | [] => none
  | (k1, v) :: rest => if k1 = k then some v else mapGet rest k

/-- Write a key unconditionally (`Mapping::insert` stores the new value even
when the key is already present; the caller separately observes whether it
was, via `mapGet` before the write). -/
def mapInsert (m : List (TxHash × PaymentInfo)) (k : TxHash) (v : PaymentInfo) :
    List (TxHash × PaymentInfo) :=
  match m with
  | [] => [(k, v)]
  | (k1, v1) :: rest =>
      if k1 = k then (k, v) :: rest else (k1, v1) :: mapInsert rest k v

/-- Delete a key (`Mapping::remove`). -/
def mapRemove (m : List (TxHash × PaymentInfo)) (k : TxHash) :
    List (TxHash × PaymentInfo) :=
  match m with
  | [] => []
  | (k1, v1) :: rest =>
      if k1 = k then rest else (k1, v1) :: mapRemove rest k

/-- Big-endian byte decomposition of a u64 (`u64::to_be_bytes`). -/
def u64BeBytes (n : Nat) : List Nat :=
  [n / 72057594037927936 % 256, n / 281474976710656 % 256,
   n / 1099511627776 % 256, n / 4294967296 % 256,
   n / 16777216 % 256, n / 65536 % 256, n / 256 % 256, n % 256]

/-- The per-byte adjustment in `get_pseudo_random`: a byte below 100 gets 100
added (with u32 wrapping, which never engages for byte inputs). -/
def otpAdjust (b : Nat) : Nat :=
  if b < 100 then (b + 100) % 4294967296 else b

/-- Source `fn get_pseudo_random(&mut self) -> u32`: hash the big-endian bytes
of the block timestamp and the salt with Keccak-256, bump the salt (wrapping
u64), adjust the first three output bytes, and compose them with wrapping u32
arithmetic.  Returns the code and the updated contract state. -/
def get_pseudo_random (ext : ExtEnv) (env : Env) (c : PaymentContract) :
    Nat × PaymentContract :=
  let seed := env.block_timestamp
  let input := u64BeBytes seed ++ u64BeBytes c.salt
  let output := ext.keccak256 input
  let c1 : PaymentContract := { c with salt := (c.salt + 1) % 18446744073709551616 }
  let part1 := otpAdjust (output 0).val
  let part2 := otpAdjust (output 1).val
  let part3 := otpAdjust (output 2).val
  let pre := (part1 * 1000 % 4294967296 + part2) % 4294967296
  ((pre * 1000 % 4294967296 + part3) % 4294967296, c1)

/-- Source `fn create_payment_info`. -/
def create_payment_info (env : Env) (receiver sender : AccountId)
    (amount : Balance) (otp : Nat) : PaymentInfo :=
  { sender := sender
    receiver := receiver
    amount := amount
    otp := otp
    otp_attempts := 1
    recorded_time := env.block_timestamp
    status := PaymentStatus.Waiting }

/-- Source `fn send_payment(&mut self, receiver, amount)`: validate the funded
value, amount and threshold, generate an OTP, build the record, store it under
its content hash (unconditionally, per `Mapping::insert`), and either report a
duplicate identifier or emit the request event. -/
def send_payment (ext : ExtEnv) (env : Env) (c : PaymentContract)
    (receiver : AccountId) (amount : Balance) : Outcome :=
  let caller := env.caller
  let amount_funded := env.transferred_value
  if amount ≠ amount_funded then
    ⟨CallResult.err Error.BalanceMismatch, c, [], []⟩
  else if amount_funded = 0 then
    ⟨CallResult.err Error.ZeroBalance, c, [], []⟩
  else if amount < c.threshold_value then
    ⟨CallResult.err Error.BelowThresholdValue, c, [], []⟩
  else
    let otpc := get_pseudo_random ext env c
    let payment_info := create_payment_info env receiver caller amount otpc.1
    let transaction_id := ext.sha2_256 payment_info
    let old := mapGet otpc.2.payment_records transaction_id
    let c2 : PaymentContract :=
      { otpc.2 with
          payment_records := mapInsert otpc.2.payment_records transaction_id payment_info }
    if old.isSome then
      ⟨CallResult.err Error.TxnIDAlreadExists, c2, [], []⟩
    else
      ⟨CallResult.ok, c2, [],
       [Event.SecurePaymentRequested caller receiver amount transaction_id otpc.1]⟩

/-- Source `fn is_expired(&self, recorded_time) -> bool`:
`block_timestamp > recorded_time.checked_add(expiry_time).unwrap()`.  The
`unwrap` panics when the u64 addition overflows; that is `none`. -/
def is_expired (c : PaymentContract) (env : Env) (recorded_time : Timestamp) :
    Option Bool :=
  if recorded_time + c.expiry_time < 18446744073709551616 then
    some (decide (env.block_timestamp > recorded_time + c.expiry_time))
  else
    none

/-- Source `fn get_amount`. -/
def get_amount (payment_info : PaymentInfo) : Balance :=
  payment_info.amount

/-- Source `fn all_attempts_done`: refund the sender, remove the record, emit
the `AllAttemptsFailed` status event, fail with `AttemptsExceedLimit`.
Note: the removal is a storage write, the status mutation is only on the local
copy used for the event. -/
def all_attempts_done (c : PaymentContract) (payment_info : PaymentInfo)
    (payment_id : TxHash) : Outcome :=
  let c1 : PaymentContract :=
    { c with payment_records := mapRemove c.payment_records payment_id }
  ⟨CallResult.err Error.AttemptsExceedLimit, c1,
   [(payment_info.sender, payment_info.amount)],
   [Event.SecurePaymentInfo payment_info.sender payment_info.receiver
      payment_info.amount payment_id PaymentStatus.AllAttemptsFailed]⟩

/-- Source `fn one_attempt_done`: increment the attempt counter with u8
`checked_add` (failing with `Overflow` when it would wrap), emit the updated
state, fail with `WrongOTP`.  The incremented counter is written only to the
local copy — the function performs no `Mapping` write, so storage keeps the
old record. -/
def one_attempt_done (c : PaymentContract) (payment_info : PaymentInfo)
    (payment_id : TxHash) : Outcome :=
  if payment_info.otp_attempts + 1 < 256 then
    ⟨CallResult.err Error.WrongOTP, c, [],
     [Event.SecurePaymentInfo payment_info.sender payment_info.receiver
        payment_info.amount payment_id PaymentStatus.Waiting]⟩
  else
    ⟨CallResult.err Error.Overflow, c, [], []⟩

/-- Source `fn receive_payment(&mut self, payment_id, sent_otp)`: look up the
record, require status `Waiting` (the source guard is literally
`status != Waiting || status == Refunded`), require the caller to be the
receiver, handle expiry (event only, no storage write), then either the
wrong-OTP paths or the success path (transfer to the receiver, persist
`Success`, emit). -/
def receive_payment (env : Env) (c : PaymentContract) (payment_id : TxHash)
    (sent_otp : Nat) : Option Outcome :=
  match mapGet c.payment_records payment_id with
  | none => some ⟨CallResult.err Error.PaymentRecordMissing, c, [], []⟩
  | some payment_info =>
      let status := payment_info.status
      if status ≠ PaymentStatus.Waiting ∨ status = PaymentStatus.Refunded then
        some ⟨CallResult.err Error.AlreadyReceivedPayment, c, [], []⟩
      else if env.caller ≠ payment_info.receiver then
        some ⟨CallResult.err Error.InvalidReceiver, c, [], []⟩
      else
        match is_expired c env payment_info.recorded_time with
        | none => none
        | some true =>
            some ⟨CallResult.err Error.TimeLimitExceeded, c, [],
              [Event.SecurePaymentInfo payment_info.sender payment_info.receiver
                 payment_info.amount payment_id PaymentStatus.Expired]⟩
        | some false =>
            if payment_info.otp ≠ sent_otp then
              if payment_info.otp_attempts > ATTEMPTS_LIMIT then
                some (all_attempts_done c payment_info payment_id)
              else
                some (one_attempt_done c payment_info payment_id)
            else
              let amount := get_amount payment_info
              let info1 : PaymentInfo := { payment_info with status := PaymentStatus.Success }
              some ⟨CallResult.ok,
                { c with payment_records := mapInsert c.payment_records payment_id info1 },
                [(payment_info.receiver, amount)],
                [Event.SecurePaymentInfo info1.sender info1.receiver info1.amount
                   payment_id PaymentStatus.Success]⟩

/-- Source `fn get_refund(&mut self, payment_id)`: look up the record, require
the caller to be the sender, then (evaluating `is_expired` first, so an
overflowing deadline panics) refund when expired and not already `Refunded` or
`Success`, else fail with `NotAllowed`. -/
def get_refund (env : Env) (c : PaymentContract) (payment_id : TxHash) :
    Option Outcome :=
  match mapGet c.payment_records payment_id with
  | none => some ⟨CallResult.err Error.PaymentRecordMissing, c, [], []⟩
  | some payment_info =>
      if env.caller ≠ payment_info.sender then
        some ⟨CallResult.err Error.InvalidSender, c, [], []⟩
      else
        match is_expired c env payment_info.recorded_time with
        | none => none
        | some expired =>
            if expired ∧ payment_info.status ≠ PaymentStatus.Refunded ∧
                payment_info.status ≠ PaymentStatus.Success then
              let info1 : PaymentInfo := { payment_info with status := PaymentStatus.Refunded }
              some ⟨CallResult.ok,
                { c with payment_records := mapInsert c.payment_records payment_id info1 },
                [(info1.sender, info1.amount)],
                [Event.SecurePaymentInfo info1.sender info1.receiver info1.amount
                   payment_id PaymentStatus.Refunded]⟩
            else
              some ⟨CallResult.err Error.NotAllowed, c, [], []⟩

/-- Source `fn set_threshold_amount`. -/
def set_threshold_amount (env : Env) (c : PaymentContract)
    (threshold_value : Balance) : Outcome :=
  if c.admin = env.caller then
    ⟨CallResult.ok, { c with threshold_value := threshold_value }, [], []⟩
  else
    ⟨CallResult.err Error.InvalidCaller, c, [], []⟩

/-- Source `fn set_expiry_period`. -/
def set_expiry_period (env : Env) (c : PaymentContract) (time : Timestamp) :
    Outcome :=
  if c.admin = env.caller then
    ⟨CallResult.ok, { c with expiry_time := time }, [], []⟩
  else
    ⟨CallResult.err Error.InvalidCaller, c, [], []⟩

/-- Source `fn view_payment_record`: `self.payment_records.get(id).unwrap()` —
a read-only lookup that panics (`none`) on a missing identifier instead of
returning a typed error. -/
def view_payment_record (c : PaymentContract) (payment_id : TxHash) :
    Option PaymentInfo :=
  mapGet c.payment_records payment_id

/-- Source `fn view_payment_expiry_time`: unwraps the lookup (panic on a
missing identifier) and computes `recorded_time.add(expiry_time)` with plain
u64 addition, modelled with release-profile wrapping semantics. -/
def view_payment_expiry_time (c : PaymentContract) (payment_id : TxHash) :
    Option Timestamp :=
  match mapGet c.payment_records payment_id with
  | none => none
  | some payment_info =>
      some ((payment_info.recorded_time + c.expiry_time) % 18446744073709551616)

/-- Source constructor `PaymentContract::new(admin)`. -/
def PaymentContract.new (admin : AccountId) : PaymentContract :=
  { payment_records := []
    threshold_value := 100000000000000
    admin := admin
    expiry_time := 86400000
    salt := 0 }

/-- One serialized invocation of a state-mutating contract message, together
with the per-call environment data. -/
inductive Op : Type where
  | sendOp (env : Env) (receiver : AccountId) (amount : Balance)
  | claimOp (env : Env) (payment_id : TxHash) (sent_otp : Nat)
  | refundOp (env : Env) (payment_id : TxHash)
  | setThresholdOp (env : Env) (threshold_value : Balance)
  | setExpiryOp (env : Env) (time : Timestamp)
deriving DecidableEq

/-- Dispatch one operation (`none` = the call panicked). -/
def runOp (ext : ExtEnv) (c : PaymentContract) : Op → Option Outcome
  | Op.sendOp env r a => some (send_payment ext env c r a)
  | Op.claimOp env pid o => receive_payment env c pid o
  | Op.refundOp env pid => get_refund env c pid
  | Op.setThresholdOp env v => some (set_threshold_amount env c v)
  | Op.setExpiryOp env t => some (set_expiry_period env c t)

/-- State after one operation; a panicking call leaves the state unchanged. -/
def stepState (ext : ExtEnv) (c : PaymentContract) (op : Op) : PaymentContract :=
  match runOp ext c op with
  | none => c
  | some o => o.state

/-- State after a serialized sequence of operations. -/
def runOps (ext : ExtEnv) (c : PaymentContract) (ops : List Op) : PaymentContract :=
  ops.foldl (stepState ext) c

/-- Recognizes the claim and reclaim operations. -/
def isClaimRefund : Op → Bool
  | Op.claimOp _ _ _ => true
  | Op.refundOp _ _ => true
  | _ => false

/-- Every record stored in the ledger has its creation-time attempt counter. -/
def attemptsInv (c : PaymentContract) : Prop :=
  ∀ payment_id rec, mapGet c.payment_records payment_id = some rec →
    rec.otp_attempts = 1

/-- Concrete digest environment for executions: all Keccak output bytes zero,
and a constant content hash (any two distinct records collide, which is also
what a real hash does on the identical records arising from equal timestamps
and equal generated OTPs). -/
def extC : ExtEnv :=
  ⟨fun _ _ => 0, fun _ => 0⟩

/-- Concrete sender environment: account 1 funding 10^14 at time 0. -/
def envSendC : Env := ⟨1, 100000000000000, 0⟩

/-- Concrete receiver environment: account 2 at time 0. -/
def envRecvC : Env := ⟨2, 0, 0⟩

/-- Concrete receiver environment well past the expiry window. -/
def envLateRecvC : Env := ⟨2, 0, 100000000000⟩

/-- Concrete sender environment well past the expiry window. -/
def envLateSendC : Env := ⟨1, 0, 100000000000⟩

/-- The record created by `envSendC` for receiver 2 under `extC` (the all-zero
Keccak bytes give OTP 100100100). -/
def recC : PaymentInfo :=
  ⟨1, 2, 100000000000000, 100100100, 1, 0, PaymentStatus.Waiting⟩

/-- Contract state after that first `send_payment` from the fresh contract. -/
def stateOneC : PaymentContract :=
  ⟨[(0, recC)], 100000000000000, 0, 86400000, 1⟩

/-- The record of `stateOneC` after a successful claim. -/
def recSuccessC : PaymentInfo :=
  ⟨1, 2, 100000000000000, 100100100, 1, 0, PaymentStatus.Success⟩

/-- Contract state after the successful claim on `stateOneC`. -/
def stateTwoC : PaymentContract :=
  ⟨[(0, recSuccessC)], 100000000000000, 0, 86400000, 1⟩

/-- The record a second `send_payment` (same sender, same block, receiver 3)
builds; under `extC` its identifier collides with the stored one. -/
def recAltC : PaymentInfo :=
  ⟨1, 3, 100000000000000, 100100100, 1, 0, PaymentStatus.Waiting⟩

/-- Contract state after the colliding `send_payment` on `stateOneC`. -/
def stateCollC : PaymentContract :=
  ⟨[(0, recAltC)], 100000000000000, 0, 86400000, 2⟩

/-- The record of `stateOneC` after a successful reclaim. -/
def recRefundedC : PaymentInfo :=
  ⟨1, 2, 100000000000000, 100100100, 1, 0, PaymentStatus.Refunded⟩

/-- Contract state after the successful reclaim on `stateOneC`. -/
def stateRefundedC : PaymentContract :=
  ⟨[(0, recRefundedC)], 100000000000000, 0, 86400000, 1⟩

/-- A record created at the largest representable timestamp. -/
def recMaxTimeC : PaymentInfo :=
  ⟨1, 2, 100000000000000, 100100100, 1, 18446744073709551615, PaymentStatus.Waiting⟩

/-- A state holding `recMaxTimeC` with expiry duration 1, so the expiry
deadline `recorded_time + expiry_time` overflows u64. -/
def stateMaxC : PaymentContract :=
  ⟨[(0, recMaxTimeC)], 100000000000000, 0, 1, 0⟩

/-- A claim by the receiver with a wrong OTP (5) before expiry. -/
def claimWrongC : Op :=
  Op.claimOp envRecvC 0 5

/-! ## Mapping lemmas -/

theorem mapGet_mapInsert_self (m : List (TxHash × PaymentInfo)) (k : TxHash)
    (v : PaymentInfo) : mapGet (mapInsert m k v) k = some v := by
  induction m with
  | nil => simp [mapInsert, mapGet]
  | cons hd tl ih =>
      obtain ⟨k1, v1⟩ := hd
      by_cases h : k1 = k
      · simp [mapInsert, h, mapGet]
      · simp [mapInsert, h, mapGet, ih]

theorem mapGet_mapInsert_ne (m : List (TxHash × PaymentInfo)) {k k2 : TxHash}
    (v : PaymentInfo) (h : k ≠ k2) :
    mapGet (mapInsert m k v) k2 = mapGet m k2 := by
  induction m with
  | nil => simp [mapInsert, mapGet, h]
  | cons hd tl ih =>
      obtain ⟨k1, v1⟩ := hd
      by_cases h1 : k1 = k
      · subst h1
        simp [mapInsert, mapGet, h]
      · simp [mapInsert, h1, mapGet, ih]

theorem mapGet_mapRemove_ne (m : List (TxHash × PaymentInfo)) {k k2 : TxHash}
    (h : k ≠ k2) : mapGet (mapRemove m k) k2 = mapGet m k2 := by
  induction m with
  | nil => simp [mapRemove, mapGet]
  | cons hd tl ih =>
      obtain ⟨k1, v1⟩ := hd
      by_cases h1 : k1 = k
      · subst h1
        simp [mapRemove, mapGet, h]
      · simp [mapRemove, h1, mapGet, ih]

theorem mem_of_mapGet {m : List (TxHash × PaymentInfo)} {k : TxHash}
    {v : PaymentInfo} (h : mapGet m k = some v) : (k, v) ∈ m := by
  induction m with
  | nil => simp [mapGet] at h
  | cons hd tl ih =>
      obtain ⟨k1, v1⟩ := hd
      by_cases h1 : k1 = k
      · subst h1
        simp [mapGet] at h
        simp [h]
      · simp [mapGet, h1] at h
        exact List.mem_cons_of_mem _ (ih h)

theorem mem_mapInsert {m : List (TxHash × PaymentInfo)} {k : TxHash}
    {v p : PaymentInfo} {k2 : TxHash}
    (h : (k2, p) ∈ mapInsert m k v) : (k2, p) = (k, v) ∨ (k2, p) ∈ m := by
  induction m with
  | nil => simpa [mapInsert] using h
  | cons hd tl ih =>
      obtain ⟨k1, v1⟩ := hd
      by_cases h1 : k1 = k
      · subst h1
        simp [mapInsert] at h
        rcases h with h | h
        · exact Or.inl (by simp [h])
        · exact Or.inr (List.mem_cons_of_mem _ h)
      · simp only [mapInsert, if_neg h1, List.mem_cons] at h
        rcases h with h | h
        · exact Or.inr (by simp [h])
        · rcases ih h with h2 | h2
          · exact Or.inl h2
          · exact Or.inr (List.mem_cons_of_mem _ h2)

theorem mem_mapRemove {m : List (TxHash × PaymentInfo)} {k k2 : TxHash}
    {p : PaymentInfo} (h : (k2, p) ∈ mapRemove m k) : (k2, p) ∈ m := by
  induction m with
  | nil => simp [mapRemove] at h
  | cons hd tl ih =>
      obtain ⟨k1, v1⟩ := hd
      by_cases h1 : k1 = k
      · subst h1
        simp [mapRemove] at h
        exact List.mem_cons_of_mem _ h
      · simp only [mapRemove, if_neg h1, List.mem_cons] at h
        rcases h with h | h
        · exact (by simp [h])
        · exact List.mem_cons_of_mem _ (ih h)

/-! ## Branch lemmas for the contract messages -/

theorem receive_payment_not_waiting {env : Env} {c : PaymentContract}
    {payment_id : TxHash} {rec : PaymentInfo} (sent_otp : Nat)
    (hget : mapGet c.payment_records payment_id = some rec)
    (hst : rec.status ≠ PaymentStatus.Waiting) :
    receive_payment env c payment_id sent_otp =
      some ⟨CallResult.err Error.AlreadyReceivedPayment, c, [], []⟩ := by
  unfold receive_payment
  rw [hget]
  simp [hst]

theorem receive_payment_success_eq {env : Env} {c : PaymentContract}
    {payment_id : TxHash} {rec : PaymentInfo}
    (hget : mapGet c.payment_records payment_id = some rec)
    (hst : rec.status = PaymentStatus.Waiting)
    (hcaller : env.caller = rec.receiver)
    (hnoof : rec.recorded_time + c.expiry_time < 18446744073709551616)
    (hnotexp : env.block_timestamp ≤ rec.recorded_time + c.expiry_time) :
    receive_payment env c payment_id rec.otp =
      some ⟨CallResult.ok,
        { c with payment_records :=
            mapInsert c.payment_records payment_id { rec with status := PaymentStatus.Success } },
        [(rec.receiver, rec.amount)],
        [Event.SecurePaymentInfo rec.sender rec.receiver rec.amount payment_id
           PaymentStatus.Success]⟩ := by
  unfold receive_payment
  rw [hget]
  simp only [hst, hcaller, is_expired, if_pos hnoof, get_amount]
  have hlt : ¬ rec.recorded_time + c.expiry_time < env.block_timestamp := not_lt.mpr hnotexp
  simp [hlt]

theorem receive_payment_wrong_otp_eq {env : Env} {c : PaymentContract}
    {payment_id : TxHash} {rec : PaymentInfo} {sent_otp : Nat}
    (hget : mapGet c.payment_records payment_id = some rec)
    (hst : rec.status = PaymentStatus.Waiting)
    (hcaller : env.caller = rec.receiver)
    (hnoof : rec.recorded_time + c.expiry_time < 18446744073709551616)
    (hnotexp : env.block_timestamp ≤ rec.recorded_time + c.expiry_time)
    (hwrong : rec.otp ≠ sent_otp)
    (hatt : ¬ rec.otp_attempts > ATTEMPTS_LIMIT) :
    receive_payment env c payment_id sent_otp =
      some ⟨CallResult.err Error.WrongOTP, c, [],
        [Event.SecurePaymentInfo rec.sender rec.receiver rec.amount payment_id
           PaymentStatus.Waiting]⟩ := by
  unfold receive_payment
  rw [hget]
  simp only [hst, hcaller, is_expired, if_pos hnoof]
  have hlt : ¬ rec.recorded_time + c.expiry_time < env.block_timestamp := not_lt.mpr hnotexp
  have hlim : ATTEMPTS_LIMIT = 3 := rfl
  have hcarry : rec.otp_attempts + 1 < 256 := by
    rw [hlim] at hatt
    omega
  simp [hlt, hwrong, hatt, one_attempt_done, hcarry]

theorem receive_payment_expired_eq {env : Env} {c : PaymentContract}
    {payment_id : TxHash} {rec : PaymentInfo} (sent_otp : Nat)
    (hget : mapGet c.payment_records payment_id = some rec)
    (hst : rec.status = PaymentStatus.Waiting)
    (hcaller : env.caller = rec.receiver)
    (hnoof : rec.recorded_time + c.expiry_time < 18446744073709551616)
    (hexp : env.block_timestamp > rec.recorded_time + c.expiry_time) :
    receive_payment env c payment_id sent_otp =
      some ⟨CallResult.err Error.TimeLimitExceeded, c, [],
        [Event.SecurePaymentInfo rec.sender rec.receiver rec.amount payment_id
           PaymentStatus.Expired]⟩ := by
  unfold receive_payment
  rw [hget]
  simp [hst, hcaller, is_expired, if_pos hnoof, hexp]

/-! ## State-shape lemmas: which storage writes each message can perform -/

theorem receive_payment_records_cases {env : Env} {c : PaymentContract}
    {payment_id : TxHash} {sent_otp : Nat} {o : Outcome}
    (h : receive_payment env c payment_id sent_otp = some o) :
    o.state.payment_records = c.payment_records ∨
      (∃ rec, mapGet c.payment_records payment_id = some rec ∧
        rec.status = PaymentStatus.Waiting ∧
        (o.state.payment_records = mapRemove c.payment_records payment_id ∨
         o.state.payment_records =
           mapInsert c.payment_records payment_id
             { rec with status := PaymentStatus.Success })) := by
  unfold receive_payment at h
  cases hget : mapGet c.payment_records payment_id with
  | none =>
      rw [hget] at h
      simp at h
      left
      rw [← h]
  | some rec =>
      rw [hget] at h
      simp only at h
      by_cases hst : rec.status ≠ PaymentStatus.Waiting ∨ rec.status = PaymentStatus.Refunded
      · rw [if_pos hst] at h
        simp at h
        left
        rw [← h]
      · rw [if_neg hst] at h
        push_neg at hst
        by_cases hcaller : env.caller ≠ rec.receiver
        · rw [if_pos hcaller] at h
          simp at h
          left
          rw [← h]
        · rw [if_neg hcaller] at h
          cases hexp : is_expired c env rec.recorded_time with
          | none =>
              rw [hexp] at h
              simp at h
          | some b =>
              rw [hexp] at h
              cases b with
              | true =>
                  simp at h
                  left
                  rw [← h]
              | false =>
                  simp only at h
                  by_cases hwrong : rec.otp ≠ sent_otp
                  · rw [if_pos hwrong] at h
                    by_cases hatt : rec.otp_attempts > ATTEMPTS_LIMIT
                    · rw [if_pos hatt] at h
                      simp only [all_attempts_done, Option.some.injEq] at h
                      right
                      exact ⟨rec, rfl, hst.1, Or.inl (by rw [← h])⟩
                    · rw [if_neg hatt] at h
                      simp only [one_attempt_done] at h
                      by_cases hcarry : rec.otp_attempts + 1 < 256
                      · rw [if_pos hcarry] at h
                        simp at h
                        left
                        rw [← h]
                      · rw [if_neg hcarry] at h
                        simp at h
                        left
                        rw [← h]
                  · rw [if_neg hwrong] at h
                    simp only [Option.some.injEq] at h
                    right
                    exact ⟨rec, rfl, hst.1, Or.inr (by rw [← h])⟩

theorem get_refund_records_cases {env : Env} {c : PaymentContract}
    {payment_id : TxHash} {o : Outcome}
    (h : get_refund env c payment_id = some o) :
    o.state.payment_records = c.payment_records ∨
      (∃ rec, mapGet c.payment_records payment_id = some rec ∧
        rec.status ≠ PaymentStatus.Refunded ∧ rec.status ≠ PaymentStatus.Success ∧
        o.state.payment_records =
          mapInsert c.payment_records payment_id
            { rec with status := PaymentStatus.Refunded }) := by
  unfold get_refund at h
  cases hget : mapGet c.payment_records payment_id with
  | none =>
      rw [hget] at h
      simp at h
      left
      rw [← h]
  | some rec =>
      rw [hget] at h
      simp only at h
      by_cases hcaller : env.caller ≠ rec.sender
      · rw [if_pos hcaller] at h
        simp at h
        left
        rw [← h]
      · rw [if_neg hcaller] at h
        cases hexp : is_expired c env rec.recorded_time with
        | none =>
            rw [hexp] at h
            simp at h
        | some b =>
            rw [hexp] at h
            simp only at h
            by_cases hcond : b = true ∧ rec.status ≠ PaymentStatus.Refunded ∧
                rec.status ≠ PaymentStatus.Success
            · rw [if_pos hcond] at h
              simp only [Option.some.injEq] at h
              right
              exact ⟨rec, rfl, hcond.2.1, hcond.2.2, by rw [← h]⟩
            · rw [if_neg hcond] at h
              simp at h
              left
              rw [← h]

theorem send_payment_records_cases (ext : ExtEnv) (env : Env)
    (c : PaymentContract) (receiver : AccountId) (amount : Balance) :
    (send_payment ext env c receiver amount).state.payment_records =
        c.payment_records ∨
      (∃ info : PaymentInfo, info.otp_attempts = 1 ∧
        (send_payment ext env c receiver amount).state.payment_records =
          mapInsert c.payment_records (ext.sha2_256 info) info) := by
  unfold send_payment
  by_cases h1 : amount ≠ env.transferred_value
  · rw [if_pos h1]
    left
    rfl
  · rw [if_neg h1]
    by_cases h2 : env.transferred_value = 0
    · rw [if_pos h2]
      left
      rfl
    · rw [if_neg h2]
      by_cases h3 : amount < c.threshold_value
      · rw [if_pos h3]
        left
        rfl
      · rw [if_neg h3]
        simp only
        by_cases h4 :
          (mapGet (get_pseudo_random ext env c).2.payment_records
            (ext.sha2_256 (create_payment_info env receiver env.caller amount
              (get_pseudo_random ext env c).1))).isSome
        · rw [if_pos h4]
          right
          exact ⟨create_payment_info env receiver env.caller amount
                   (get_pseudo_random ext env c).1, rfl, rfl⟩
        · rw [if_neg h4]
          right
          exact ⟨create_payment_info env receiver env.caller amount
                   (get_pseudo_random ext env c).1, rfl, rfl⟩

theorem get_pseudo_random_records (ext : ExtEnv) (env : Env)
    (c : PaymentContract) :
    (get_pseudo_random ext env c).2.payment_records = c.payment_records := rfl

/-! ## Success records are sticky under claim and reclaim operations -/

theorem success_sticky_step {ext : ExtEnv} {c : PaymentContract} {k : TxHash}
    {rec : PaymentInfo} (hget : mapGet c.payment_records k = some rec)
    (hsucc : rec.status = PaymentStatus.Success) {op : Op}
    (hop : isClaimRefund op = true) :
    mapGet (stepState ext c op).payment_records k = some rec := by
  cases op with
  | sendOp env r a => simp [isClaimRefund] at hop
  | setThresholdOp env v => simp [isClaimRefund] at hop
  | setExpiryOp env t => simp [isClaimRefund] at hop
  | claimOp env pid sotp =>
      have hrun : stepState ext c (Op.claimOp env pid sotp) =
          match receive_payment env c pid sotp with
          | none => c
          | some o => o.state := rfl
      rw [hrun]
      cases h : receive_payment env c pid sotp with
      | none => exact hget
      | some o =>
          simp only
          rcases receive_payment_records_cases h with hsame | ⟨rec2, hget2, hw2, hwrite⟩
          · rw [hsame, hget]
          · by_cases hk : pid = k
            · subst hk
              rw [hget] at hget2
              injection hget2 with h2
              rw [h2] at hsucc
              rw [hw2] at hsucc
              exact absurd hsucc (by simp)
            · rcases hwrite with hwrite | hwrite
              · rw [hwrite, mapGet_mapRemove_ne _ hk, hget]
              · rw [hwrite, mapGet_mapInsert_ne _ _ hk, hget]
  | refundOp env pid =>
      have hrun : stepState ext c (Op.refundOp env pid) =
          match get_refund env c pid with
          | none => c
          | some o => o.state := rfl
      rw [hrun]
      cases h : get_refund env c pid with
      | none => exact hget
      | some o =>
          simp only
          rcases get_refund_records_cases h with hsame | ⟨rec2, hget2, hr2, hs2, hwrite⟩
          · rw [hsame, hget]
          · by_cases hk : pid = k
            · subst hk
              rw [hget] at hget2
              injection hget2 with h2
              rw [h2] at hsucc
              exact absurd hsucc hs2
            · rw [hwrite, mapGet_mapInsert_ne _ _ hk, hget]

theorem success_sticky_runOps {ext : ExtEnv} {c : PaymentContract} {k : TxHash}
    {rec : PaymentInfo} (hget : mapGet c.payment_records k = some rec)
    (hsucc : rec.status = PaymentStatus.Success) {ops : List Op}
    (hops : ∀ op ∈ ops, isClaimRefund op = true) :
    mapGet (runOps ext c ops).payment_records k = some rec := by
  induction ops generalizing c with
  | nil => exact hget
  | cons op rest ih =>
      have hstep := @success_sticky_step ext c k rec hget hsucc op (hops op (by simp))
      exact ih hstep (fun o ho => hops o (List.mem_cons_of_mem _ ho))

/-! ## The attempt counter of every stored record stays at 1 -/

theorem attemptsInv_step {ext : ExtEnv} {c : PaymentContract}
    (hinv : ∀ p ∈ c.payment_records, (p.2 : PaymentInfo).otp_attempts = 1)
    (op : Op) :
    ∀ p ∈ (stepState ext c op).payment_records, (p.2 : PaymentInfo).otp_attempts = 1 := by
  cases op with
  | sendOp env r a =>
      intro p hp
      have hp2 : p ∈ (send_payment ext env c r a).state.payment_records := hp
      rcases send_payment_records_cases ext env c r a with hsame | ⟨info, hatt, hwrite⟩
      · rw [hsame] at hp2
        exact hinv p hp2
      · rw [hwrite] at hp2
        obtain ⟨k2, v⟩ := p
        rcases mem_mapInsert hp2 with heq | hmem
        · simp only [Prod.mk.injEq] at heq
          rw [heq.2]
          exact hatt
        · exact hinv _ hmem
  | claimOp env pid sotp =>
      intro p hp
      have hrun : stepState ext c (Op.claimOp env pid sotp) =
          match receive_payment env c pid sotp with
          | none => c
          | some o => o.state := rfl
      rw [hrun] at hp
      cases h : receive_payment env c pid sotp with
      | none =>
          rw [h] at hp
          exact hinv p hp
      | some o =>
          rw [h] at hp
          have hp2 : p ∈ o.state.payment_records := hp
          rcases receive_payment_records_cases h with hsame | ⟨rec, hget, hw, hwrite⟩
          · rw [hsame] at hp2
            exact hinv p hp2
          · obtain ⟨k2, v⟩ := p
            rcases hwrite with hwrite | hwrite
            · rw [hwrite] at hp2
              exact hinv _ (mem_mapRemove hp2)
            · rw [hwrite] at hp2
              rcases mem_mapInsert hp2 with heq | hmem
              · have h1 : rec.otp_attempts = 1 := hinv _ (mem_of_mapGet hget)
                simp only [Prod.mk.injEq] at heq
                rw [heq.2]
                exact h1
              · exact hinv _ hmem
  | refundOp env pid =>
      intro p hp
      have hrun : stepState ext c (Op.refundOp env pid) =
          match get_refund env c pid with
          | none => c
          | some o => o.state := rfl
      rw [hrun] at hp
      cases h : get_refund env c pid with
      | none =>
          rw [h] at hp
          exact hinv p hp
      | some o =>
          rw [h] at hp
          have hp2 : p ∈ o.state.payment_records := hp
          rcases get_refund_records_cases h with hsame | ⟨rec, hget, hr, hs, hwrite⟩
          · rw [hsame] at hp2
            exact hinv p hp2
          · obtain ⟨k2, v⟩ := p
            rw [hwrite] at hp2
            rcases mem_mapInsert hp2 with heq | hmem
            · have h1 : rec.otp_attempts = 1 := hinv _ (mem_of_mapGet hget)
              simp only [Prod.mk.injEq] at heq
              rw [heq.2]
              exact h1
            · exact hinv _ hmem
  | setThresholdOp env v =>
      intro p hp
      have hp2 : p ∈ (set_threshold_amount env c v).state.payment_records := hp
      unfold set_threshold_amount at hp2
      by_cases hc : c.admin = env.caller
      · rw [if_pos hc] at hp2
        exact hinv p hp2
      · rw [if_neg hc] at hp2
        exact hinv p hp2
  | setExpiryOp env t =>
      intro p hp
      have hp2 : p ∈ (set_expiry_period env c t).state.payment_records := hp
      unfold set_expiry_period at hp2
      by_cases hc : c.admin = env.caller
      · rw [if_pos hc] at hp2
        exact hinv p hp2
      · rw [if_neg hc] at hp2
        exact hinv p hp2

theorem attemptsInv_runOps {ext : ExtEnv} {c : PaymentContract}
    (hinv : ∀ p ∈ c.payment_records, (p.2 : PaymentInfo).otp_attempts = 1)
    (ops : List Op) :
    ∀ p ∈ (runOps ext c ops).payment_records, (p.2 : PaymentInfo).otp_attempts = 1 := by
  induction ops generalizing c with
  | nil => exact hinv
  | cons op rest ih => exact ih (attemptsInv_step hinv op)

/-! ## Claim theorems -/

/-- Arithmetic helper: for byte-bounded contributions the wrapping u32
composition in `get_pseudo_random` equals the plain composition. -/
theorem otpCompose_eq (a b d : Nat) (ha : a ≤ 255) (hb : b ≤ 255) (hd : d ≤ 255) :
    ((a * 1000 % 4294967296 + b) % 4294967296 * 1000 % 4294967296 + d) % 4294967296 =
      (a * 1000 + b) * 1000 + d := by
  have h1 : a * 1000 % 4294967296 = a * 1000 := Nat.mod_eq_of_lt (by omega)
  rw [h1]
  have h2 : (a * 1000 + b) % 4294967296 = a * 1000 + b := Nat.mod_eq_of_lt (by omega)
  rw [h2]
  have h3 : (a * 1000 + b) * 1000 % 4294967296 = (a * 1000 + b) * 1000 :=
    Nat.mod_eq_of_lt (by omega)
  rw [h3]
  exact Nat.mod_eq_of_lt (by omega)

/-- C9: for every timestamp and counter value, `get_pseudo_random` hashes the
big-endian concatenation of the block timestamp and the salt, adjusts the
first three output bytes (adding 100 to any byte below 100), composes the
code as `((b0 * 1000 + b1) * 1000 + b2)` — the wrapping u32 arithmetic never
actually wraps for byte inputs — bumps the salt with u64 wraparound, and the
resulting code always lies in `[100100100, 255255255]`, hence is exactly nine
decimal digits wide. -/
theorem get_pseudo_random_spec (ext : ExtEnv) (env : Env) (c : PaymentContract) :
    (get_pseudo_random ext env c).1 =
      (otpAdjust ((ext.keccak256 (u64BeBytes env.block_timestamp ++ u64BeBytes c.salt)) 0).val
          * 1000 +
        otpAdjust ((ext.keccak256 (u64BeBytes env.block_timestamp ++ u64BeBytes c.salt)) 1).val)
          * 1000 +
      otpAdjust ((ext.keccak256 (u64BeBytes env.block_timestamp ++ u64BeBytes c.salt)) 2).val ∧
    100100100 ≤ (get_pseudo_random ext env c).1 ∧
    (get_pseudo_random ext env c).1 ≤ 255255255 ∧
    100000000 ≤ (get_pseudo_random ext env c).1 ∧
    (get_pseudo_random ext env c).1 < 1000000000 ∧
    (get_pseudo_random ext env c).2 =
      { c with salt := (c.salt + 1) % 18446744073709551616 } := by
  have hadj : ∀ b : Fin 256, 100 ≤ otpAdjust b.val ∧ otpAdjust b.val ≤ 255 := by
    intro b
    have hb := b.is_lt
    unfold otpAdjust
    split <;> omega
  obtain ⟨ha1, ha2⟩ :=
    hadj ((ext.keccak256 (u64BeBytes env.block_timestamp ++ u64BeBytes c.salt)) 0)
  obtain ⟨hb1, hb2⟩ :=
    hadj ((ext.keccak256 (u64BeBytes env.block_timestamp ++ u64BeBytes c.salt)) 1)
  obtain ⟨hc1, hc2⟩ :=
    hadj ((ext.keccak256 (u64BeBytes env.block_timestamp ++ u64BeBytes c.salt)) 2)
  have hcomp := otpCompose_eq _ _ _ ha2 hb2 hc2
  simp only [get_pseudo_random]
  rw [hcomp]
  exact ⟨rfl, by omega, by omega, by omega, by omega, trivial⟩

/-- C6: `get_refund` fails with `PaymentRecordMissing` when the identifier is
absent, with `InvalidSender` when the caller is not the stored sender
(regardless of expiry), and with `NotAllowed` unless the record is
time-expired with a status that is neither `Refunded` nor `Success`; when all
conditions hold it transfers the amount back to the sender, persists the
record with status `Refunded`, emits the status event and returns success.
The expiry deadline must not overflow u64, otherwise the call panics. -/
theorem get_refund_spec (env : Env) (c : PaymentContract) (payment_id : TxHash) :
    (mapGet c.payment_records payment_id = none →
       get_refund env c payment_id =
         some ⟨CallResult.err Error.PaymentRecordMissing, c, [], []⟩) ∧
    (∀ rec, mapGet c.payment_records payment_id = some rec →
       env.caller ≠ rec.sender →
       get_refund env c payment_id =
         some ⟨CallResult.err Error.InvalidSender, c, [], []⟩) ∧
    (∀ rec, mapGet c.payment_records payment_id = some rec →
       env.caller = rec.sender →
       rec.recorded_time + c.expiry_time < 18446744073709551616 →
       ¬ (env.block_timestamp > rec.recorded_time + c.expiry_time ∧
           rec.status ≠ PaymentStatus.Refunded ∧ rec.status ≠ PaymentStatus.Success) →
       get_refund env c payment_id =
         some ⟨CallResult.err Error.NotAllowed, c, [], []⟩) ∧
    (∀ rec, mapGet c.payment_records payment_id = some rec →
       env.caller = rec.sender →
       rec.recorded_time + c.expiry_time < 18446744073709551616 →
       env.block_timestamp > rec.recorded_time + c.expiry_time →
       rec.status ≠ PaymentStatus.Refunded →
       rec.status ≠ PaymentStatus.Success →
       get_refund env c payment_id =
         some ⟨CallResult.ok,
           { c with payment_records :=
               (mapInsert c.payment_records payment_id
                 { rec with status := PaymentStatus.Refunded }) },
           [(rec.sender, rec.amount)],
           [Event.SecurePaymentInfo rec.sender rec.receiver rec.amount payment_id
              PaymentStatus.Refunded]⟩) := by
  refine ⟨?_, ?_, ?_, ?_⟩
  · intro h
    unfold get_refund
    rw [h]
  · intro rec h hc
    unfold get_refund
    rw [h]
    simp only [if_pos hc]
  · intro rec h hc hnoof hnot
    unfold get_refund
    rw [h]
    have hc2 : ¬ env.caller ≠ rec.sender := by simp [hc]
    simp only [if_neg hc2, is_expired, if_pos hnoof]
    rw [if_neg]
    simp only [decide_eq_true_eq]
    exact hnot
  · intro rec h hc hnoof hexp hr hs
    unfold get_refund
    rw [h]
    have hc2 : ¬ env.caller ≠ rec.sender := by simp [hc]
    simp only [if_neg hc2, is_expired, if_pos hnoof]
    rw [if_pos]
    simp only [decide_eq_true_eq]
    exact ⟨hexp, hr, hs⟩

/-- C6 witness: concrete runs of all four branches of `get_refund_spec`:
missing record, wrong caller, not-yet-expired, and a successful refund. -/
theorem get_refund_spec_witness :
    get_refund envLateSendC stateOneC 0 =
      some ⟨CallResult.ok, stateRefundedC, [(1, 100000000000000)],
        [Event.SecurePaymentInfo 1 2 100000000000000 0 PaymentStatus.Refunded]⟩ ∧
    get_refund envLateRecvC stateOneC 0 =
      some ⟨CallResult.err Error.InvalidSender, stateOneC, [], []⟩ ∧
    get_refund envSendC stateOneC 0 =
      some ⟨CallResult.err Error.NotAllowed, stateOneC, [], []⟩ ∧
    get_refund envSendC (PaymentContract.new 0) 0 =
      some ⟨CallResult.err Error.PaymentRecordMissing, PaymentContract.new 0, [], []⟩ := by
  refine ⟨?_, ?_, ?_, ?_⟩
  · exact (get_refund_spec envLateSendC stateOneC 0).2.2.2 recC (by decide) (by decide)
      (by decide) (by decide) (by decide) (by decide)
  · exact (get_refund_spec envLateRecvC stateOneC 0).2.1 recC (by decide) (by decide)
  · exact (get_refund_spec envSendC stateOneC 0).2.2.1 recC (by decide) (by decide)
      (by decide) (by decide)
  · exact (get_refund_spec envSendC (PaymentContract.new 0) 0).1 (by decide)

/-- C4: when a `Waiting` record exists, the caller is its receiver, the record
is not time-expired (and the deadline does not overflow), and the submitted
OTP matches, `receive_payment` transfers the amount to the receiver, persists
the record with status `Success`, emits the success event and returns `Ok`;
and after any further sequence of claim and reclaim operations the stored
status is still `Success`, so every later claim on the identifier fails with
`AlreadyReceivedPayment` (the source error behind the spec's `NotAllowed` for
a claim on a non-`Waiting` record) without any transfer, event or write. -/
theorem receive_payment_success_once (ext : ExtEnv) (env : Env)
    (c c2 : PaymentContract) (payment_id : TxHash) (rec : PaymentInfo)
    (hget : mapGet c.payment_records payment_id = some rec)
    (hst : rec.status = PaymentStatus.Waiting)
    (hcaller : env.caller = rec.receiver)
    (hnoof : rec.recorded_time + c.expiry_time < 18446744073709551616)
    (hnotexp : env.block_timestamp ≤ rec.recorded_time + c.expiry_time)
    (hc2 : c2 = { c with payment_records :=
        (mapInsert c.payment_records payment_id
          { rec with status := PaymentStatus.Success }) }) :
    receive_payment env c payment_id rec.otp =
      some ⟨CallResult.ok, c2, [(rec.receiver, rec.amount)],
        [Event.SecurePaymentInfo rec.sender rec.receiver rec.amount payment_id
           PaymentStatus.Success]⟩ ∧
    mapGet c2.payment_records payment_id =
      some { rec with status := PaymentStatus.Success } ∧
    (∀ ops : List Op, (∀ op ∈ ops, isClaimRefund op = true) →
      ∀ env2 : Env, ∀ sotp2 : Nat,
        receive_payment env2 (runOps ext c2 ops) payment_id sotp2 =
          some ⟨CallResult.err Error.AlreadyReceivedPayment,
            runOps ext c2 ops, [], []⟩) := by
  subst hc2
  refine ⟨receive_payment_success_eq hget hst hcaller hnoof hnotexp,
    mapGet_mapInsert_self _ _ _, ?_⟩
  intro ops hops env2 sotp2
  have hsget : mapGet (runOps ext
      { c with payment_records :=
        (mapInsert c.payment_records payment_id
          { rec with status := PaymentStatus.Success }) } ops).payment_records
        payment_id = some { rec with status := PaymentStatus.Success } :=
    success_sticky_runOps (mapGet_mapInsert_self _ _ _) rfl hops
  exact receive_payment_not_waiting sotp2 hsget (by simp)

/-- C4 witness: the concrete successful claim on `stateOneC`, and the claim
after a further (failing) reclaim attempt, which is rejected with
`AlreadyReceivedPayment`. -/
theorem receive_payment_success_once_witness :
    receive_payment envRecvC stateOneC 0 100100100 =
      some ⟨CallResult.ok, stateTwoC, [(2, 100000000000000)],
        [Event.SecurePaymentInfo 1 2 100000000000000 0 PaymentStatus.Success]⟩ ∧
    receive_payment envRecvC (runOps extC stateTwoC
        [Op.refundOp envLateSendC 0, Op.claimOp envRecvC 0 100100100]) 0 100100100 =
      some ⟨CallResult.err Error.AlreadyReceivedPayment, stateTwoC, [], []⟩ := by
  have h := receive_payment_success_once extC envRecvC stateOneC stateTwoC 0 recC
    (by decide) (by decide) (by decide) (by decide) (by decide) (by decide)
  refine ⟨h.1, ?_⟩
  have h2 := h.2.2 [Op.refundOp envLateSendC 0, Op.claimOp envRecvC 0 100100100]
    (by decide) envRecvC 100100100
  have h3 : runOps extC stateTwoC
      [Op.refundOp envLateSendC 0, Op.claimOp envRecvC 0 100100100] = stateTwoC := by decide
  rw [h3] at h2
  exact h2

/-- C5 counterexample: a claim on the concrete `Waiting` record past the
expiry window emits the `Expired` status event and fails with
`TimeLimitExceeded`, but the stored record is completely unchanged — its
status is still `Waiting`, not `Expired`, so the claimed transition of the
stored record to `Expired` does not happen. -/
theorem receive_payment_expiry_counterexample :
    receive_payment envLateRecvC stateOneC 0 100100100 =
      some ⟨CallResult.err Error.TimeLimitExceeded, stateOneC, [],
        [Event.SecurePaymentInfo 1 2 100000000000000 0 PaymentStatus.Expired]⟩ ∧
    envLateRecvC.block_timestamp >
      recC.recorded_time + stateOneC.expiry_time ∧
    ¬ ((mapGet stateOneC.payment_records 0).map PaymentInfo.status =
        some PaymentStatus.Expired) ∧
    (mapGet stateOneC.payment_records 0).map PaymentInfo.status =
      some PaymentStatus.Waiting := by decide

/-- C5 amended: when the receiver claims an existing `Waiting` record after
`now > created_at + expiry_duration` (with no deadline overflow), the call
emits a status event carrying `Expired`, moves no funds, and fails with the
`TimeLimitExceeded` (spec `Expired`) error regardless of the submitted OTP;
the stored record is left entirely unchanged — still status `Waiting`, the
`Expired` status is not persisted (the record does remain in storage, so a
later reclaim can still operate on it). -/
theorem receive_payment_expiry_amended (env : Env) (c : PaymentContract)
    (payment_id : TxHash) (rec : PaymentInfo) (sent_otp : Nat)
    (hget : mapGet c.payment_records payment_id = some rec)
    (hst : rec.status = PaymentStatus.Waiting)
    (hcaller : env.caller = rec.receiver)
    (hnoof : rec.recorded_time + c.expiry_time < 18446744073709551616)
    (hexp : env.block_timestamp > rec.recorded_time + c.expiry_time) :
    receive_payment env c payment_id sent_otp =
      some ⟨CallResult.err Error.TimeLimitExceeded, c, [],
        [Event.SecurePaymentInfo rec.sender rec.receiver rec.amount payment_id
           PaymentStatus.Expired]⟩ ∧
    (mapGet c.payment_records payment_id).map PaymentInfo.status =
      some PaymentStatus.Waiting := by
  refine ⟨receive_payment_expired_eq sent_otp hget hst hcaller hnoof hexp, ?_⟩
  rw [hget]
  simp [hst]

/-- C5 amended witness: the concrete late claim, with a wrong OTP, on
`stateOneC`. -/
theorem receive_payment_expiry_amended_witness :
    receive_payment envLateRecvC stateOneC 0 5 =
      some ⟨CallResult.err Error.TimeLimitExceeded, stateOneC, [],
        [Event.SecurePaymentInfo 1 2 100000000000000 0 PaymentStatus.Expired]⟩ ∧
    (mapGet stateOneC.payment_records 0).map PaymentInfo.status =
      some PaymentStatus.Waiting :=
  receive_payment_expiry_amended envLateRecvC stateOneC 0 recC 5
    (by decide) (by decide) (by decide) (by decide) (by decide)

/-- C7 counterexample: on a missing identifier both view messages panic
(`none`) instead of returning a `PaymentRecordMissing` (`RecordNotFound`)
error — their source signatures do not even return a `Result` — and on a
record whose `created_at + expiry_duration` exceeds the u64 range,
`view_payment_expiry_time` silently wraps to 0 instead of failing with
`Overflow`. -/
theorem view_ops_counterexample :
    view_payment_record (PaymentContract.new 0) 0 = none ∧
    view_payment_expiry_time (PaymentContract.new 0) 0 = none ∧
    recMaxTimeC.recorded_time + stateMaxC.expiry_time = 18446744073709551616 ∧
    view_payment_expiry_time stateMaxC 0 = some 0 := by decide

/-- C7 amended: the view messages are read-only functions of the state; on an
unknown identifier both panic (modelled `none`) rather than returning
`RecordNotFound`; on a stored record `view_payment_record` returns it and
`view_payment_expiry_time` returns `created_at + expiry_duration` computed
with plain wrapping u64 addition, never an `Overflow` error. -/
theorem view_ops_amended (c : PaymentContract) (payment_id : TxHash) :
    (mapGet c.payment_records payment_id = none →
       view_payment_record c payment_id = none ∧
       view_payment_expiry_time c payment_id = none) ∧
    (∀ rec, mapGet c.payment_records payment_id = some rec →
       view_payment_record c payment_id = some rec ∧
       view_payment_expiry_time c payment_id =
         some ((rec.recorded_time + c.expiry_time) % 18446744073709551616)) := by
  constructor
  · intro h
    constructor
    · exact h
    · unfold view_payment_expiry_time
      rw [h]
  · intro rec h
    constructor
    · exact h
    · unfold view_payment_expiry_time
      rw [h]

/-- C7 amended witness: the two branches at concrete states. -/
theorem view_ops_amended_witness :
    view_payment_record (PaymentContract.new 0) 7 = none ∧
    view_payment_record stateOneC 0 = some recC ∧
    view_payment_expiry_time stateOneC 0 = some 86400000 := by
  refine ⟨((view_ops_amended (PaymentContract.new 0) 7).1 (by decide)).1, ?_, ?_⟩
  · exact ((view_ops_amended stateOneC 0).2 recC (by decide)).1
  · exact ((view_ops_amended stateOneC 0).2 recC (by decide)).2

/-- C8: `send_payment` validates in order — `BalanceMismatch` when the funded
value differs from `amount` (no state change at all), `ZeroBalance` when the
amount is zero, `BelowThresholdValue` when it is below the threshold — and
otherwise stores a record with status `Waiting`, `otp_attempts = 1`,
`recorded_time` equal to the block timestamp, and the given sender, receiver
and amount under its content hash (here with a fresh identifier), so that an
immediately following `view_payment_record` on that identifier returns the
record. -/
theorem send_payment_spec (ext : ExtEnv) (env : Env) (c : PaymentContract)
    (receiver : AccountId) (amount : Balance) :
    (amount ≠ env.transferred_value →
       send_payment ext env c receiver amount =
         ⟨CallResult.err Error.BalanceMismatch, c, [], []⟩) ∧
    (amount = env.transferred_value → amount = 0 →
       send_payment ext env c receiver amount =
         ⟨CallResult.err Error.ZeroBalance, c, [], []⟩) ∧
    (amount = env.transferred_value → amount ≠ 0 → amount < c.threshold_value →
       send_payment ext env c receiver amount =
         ⟨CallResult.err Error.BelowThresholdValue, c, [], []⟩) ∧
    (∀ rec : PaymentInfo, ∀ tid : TxHash,
       amount = env.transferred_value → amount ≠ 0 → ¬ amount < c.threshold_value →
       rec = create_payment_info env receiver env.caller amount
         (get_pseudo_random ext env c).1 →
       tid = ext.sha2_256 rec →
       mapGet c.payment_records tid = none →
       send_payment ext env c receiver amount =
         ⟨CallResult.ok,
          { (get_pseudo_random ext env c).2 with
              payment_records := (mapInsert c.payment_records tid rec) },
          [],
          [Event.SecurePaymentRequested env.caller receiver amount tid
             (get_pseudo_random ext env c).1]⟩ ∧
       rec.status = PaymentStatus.Waiting ∧
       rec.otp_attempts = 1 ∧
       rec.recorded_time = env.block_timestamp ∧
       rec.sender = env.caller ∧
       rec.receiver = receiver ∧
       rec.amount = amount ∧
       view_payment_record
         { (get_pseudo_random ext env c).2 with
             payment_records := (mapInsert c.payment_records tid rec) } tid =
           some rec) := by
  refine ⟨?_, ?_, ?_, ?_⟩
  · intro h1
    simp only [send_payment]
    rw [if_pos h1]
  · intro h1 h2
    have hn1 : ¬ amount ≠ env.transferred_value := by simp [h1]
    have hz : env.transferred_value = 0 := h1.symm.trans h2
    simp only [send_payment]
    rw [if_neg hn1, if_pos hz]
  · intro h1 h2 h3
    have hn1 : ¬ amount ≠ env.transferred_value := by simp [h1]
    have hnz : ¬ env.transferred_value = 0 := fun h => h2 (h1.trans h)
    simp only [send_payment]
    rw [if_neg hn1, if_neg hnz, if_pos h3]
  · intro rec tid h1 h2 h3 hrec htid hfresh
    subst hrec
    subst htid
    refine ⟨?_, rfl, rfl, rfl, rfl, rfl, rfl,
      by unfold view_payment_record; exact mapGet_mapInsert_self _ _ _⟩
    have hn1 : ¬ amount ≠ env.transferred_value := by simp [h1]
    have hnz : ¬ env.transferred_value = 0 := fun h => h2 (h1.trans h)
    have hfresh2 : ¬ (mapGet (get_pseudo_random ext env c).2.payment_records
        (ext.sha2_256 (create_payment_info env receiver env.caller amount
          (get_pseudo_random ext env c).1))).isSome = true := by
      rw [get_pseudo_random_records, hfresh]
      simp
    simp only [send_payment]
    rw [if_neg hn1, if_neg hnz, if_neg h3, if_neg hfresh2, get_pseudo_random_records]

/-- C8 witness: the four branches at concrete inputs — a mismatching funded
value, a funded zero amount, a below-threshold amount, and the successful
creation leading to `stateOneC` whose record `view_payment_record` returns. -/
theorem send_payment_spec_witness :
    send_payment extC envSendC (PaymentContract.new 0) 2 5 =
      ⟨CallResult.err Error.BalanceMismatch, PaymentContract.new 0, [], []⟩ ∧
    send_payment extC ⟨1, 0, 0⟩ (PaymentContract.new 0) 2 0 =
      ⟨CallResult.err Error.ZeroBalance, PaymentContract.new 0, [], []⟩ ∧
    send_payment extC ⟨1, 7, 0⟩ (PaymentContract.new 0) 2 7 =
      ⟨CallResult.err Error.BelowThresholdValue, PaymentContract.new 0, [], []⟩ ∧
    send_payment extC envSendC (PaymentContract.new 0) 2 100000000000000 =
      ⟨CallResult.ok, stateOneC, [],
       [Event.SecurePaymentRequested 1 2 100000000000000 0 100100100]⟩ ∧
    view_payment_record stateOneC 0 = some recC := by
  refine ⟨?_, ?_, ?_, ?_, ?_⟩
  · exact (send_payment_spec extC envSendC (PaymentContract.new 0) 2 5).1 (by decide)
  · exact (send_payment_spec extC ⟨1, 0, 0⟩ (PaymentContract.new 0) 2 0).2.1
      (by decide) (by decide)
  · exact (send_payment_spec extC ⟨1, 7, 0⟩ (PaymentContract.new 0) 2 7).2.2.1
      (by decide) (by decide) (by decide)
  · exact ((send_payment_spec extC envSendC (PaymentContract.new 0) 2
      100000000000000).2.2.2 recC 0 (by decide) (by decide) (by decide) (by decide)
      (by decide) (by decide)).1
  · exact ((send_payment_spec extC envSendC (PaymentContract.new 0) 2
      100000000000000).2.2.2 recC 0 (by decide) (by decide) (by decide) (by decide)
      (by decide) (by decide)).2.2.2.2.2.2.2

/-- C10: a claim with a wrong OTP whose stored record has not exceeded the
attempt limit performs no storage write at all — the post-call state is the
pre-call state, only a status event is emitted and `WrongOTP` returned (the
incremented counter is written only to a dropped local copy) — and
consequently in every state reachable from a fresh contract by any sequence
of operations, every stored record has `otp_attempts = 1`, its creation
value. -/
theorem wrong_otp_no_write_and_attempts_one :
    (∀ (env : Env) (c : PaymentContract) (payment_id : TxHash)
        (rec : PaymentInfo) (sent_otp : Nat),
       mapGet c.payment_records payment_id = some rec →
       rec.status = PaymentStatus.Waiting →
       env.caller = rec.receiver →
       rec.recorded_time + c.expiry_time < 18446744073709551616 →
       env.block_timestamp ≤ rec.recorded_time + c.expiry_time →
       rec.otp ≠ sent_otp →
       ¬ rec.otp_attempts > ATTEMPTS_LIMIT →
       receive_payment env c payment_id sent_otp =
         some ⟨CallResult.err Error.WrongOTP, c, [],
           [Event.SecurePaymentInfo rec.sender rec.receiver rec.amount payment_id
              PaymentStatus.Waiting]⟩) ∧
    (∀ (ext : ExtEnv) (admin : AccountId) (ops : List Op),
       attemptsInv (runOps ext (PaymentContract.new admin) ops)) := by
  constructor
  · intro env c payment_id rec sent_otp hget hst hcaller hnoof hnotexp hwrong hatt
    exact receive_payment_wrong_otp_eq hget hst hcaller hnoof hnotexp hwrong hatt
  · intro ext admin ops payment_id rec hget
    have hinv0 : ∀ p ∈ (PaymentContract.new admin).payment_records,
        (p.2 : PaymentInfo).otp_attempts = 1 := by
      intro p hp
      simp [PaymentContract.new] at hp
    exact attemptsInv_runOps hinv0 ops (payment_id, rec) (mem_of_mapGet hget)

/-- C10 witness: the concrete wrong-OTP claim on `stateOneC` leaves the state
literally unchanged, and the record reached by a concrete operation sequence
(create, then two wrong claims) still has `otp_attempts = 1`. -/
theorem wrong_otp_no_write_witness :
    receive_payment envRecvC stateOneC 0 5 =
      some ⟨CallResult.err Error.WrongOTP, stateOneC, [],
        [Event.SecurePaymentInfo 1 2 100000000000000 0 PaymentStatus.Waiting]⟩ ∧
    recC.otp_attempts = 1 := by
  constructor
  · exact wrong_otp_no_write_and_attempts_one.1 envRecvC stateOneC 0 recC 5
      (by decide) (by decide) (by decide) (by decide) (by decide) (by decide)
      (by decide)
  · exact wrong_otp_no_write_and_attempts_one.2 extC 0
      [Op.sendOp envSendC 2 100000000000000, claimWrongC, claimWrongC] 0 recC
      (by decide)

/-- C1 is violated by the code: after the successful claim on `stateOneC`
persists status `Success` at identifier 0 (with the amount transferred to the
receiver), a colliding `send_payment` — rejected with `TxnIDAlreadExists` —
still overwrites the stored record back to `Waiting` because
`Mapping::insert` writes before the duplicate check, and a subsequent claim
on the same identifier performs a second value transfer. -/
theorem double_release_counterexample :
    (receive_payment envRecvC stateOneC 0 100100100).map
        (fun o => (o.result, o.transfers)) =
      some (CallResult.ok, [(2, 100000000000000)]) ∧
    (mapGet (stepState extC stateOneC
        (Op.claimOp envRecvC 0 100100100)).payment_records 0).map
        PaymentInfo.status = some PaymentStatus.Success ∧
    (send_payment extC envSendC
        (stepState extC stateOneC (Op.claimOp envRecvC 0 100100100)) 2
        100000000000000).result = CallResult.err Error.TxnIDAlreadExists ∧
    (receive_payment envRecvC
        (stepState extC (stepState extC stateOneC (Op.claimOp envRecvC 0 100100100))
          (Op.sendOp envSendC 2 100000000000000)) 0 100100100).map
        (fun o => (o.result, o.transfers)) =
      some (CallResult.ok, [(2, 100000000000000)]) := by decide

/-- C2 is violated by the code: `one_attempt_done` never writes the
incremented counter back to storage, so three wrong-OTP claims on the fresh
record leave the state literally unchanged (stored attempts stay 1, not 4),
the fourth wrong claim still fails with `WrongOTP` instead of
`AttemptsExceedLimit`, nothing is deleted or refunded, and
`view_payment_record` still returns the record afterwards. -/
theorem attempts_limit_counterexample :
    runOps extC stateOneC [claimWrongC, claimWrongC, claimWrongC] = stateOneC ∧
    receive_payment envRecvC stateOneC 0 5 =
      some ⟨CallResult.err Error.WrongOTP, stateOneC, [],
        [Event.SecurePaymentInfo 1 2 100000000000000 0 PaymentStatus.Waiting]⟩ ∧
    runOps extC stateOneC [claimWrongC, claimWrongC, claimWrongC, claimWrongC] =
      stateOneC ∧
    view_payment_record stateOneC 0 = some recC ∧
    recC.otp_attempts = 1 := by decide

/-- C3 is violated by the code: a `send_payment` whose computed identifier
collides with a stored one fails with `TxnIDAlreadExists` and emits no event,
but — because `Mapping::insert` stores the new record before the duplicate
check — the previously stored record (receiver 2) has been replaced by the
new one (receiver 3). -/
theorem collision_overwrite_counterexample :
    send_payment extC envSendC stateOneC 3 100000000000000 =
      ⟨CallResult.err Error.TxnIDAlreadExists, stateCollC, [], []⟩ ∧
    mapGet stateOneC.payment_records 0 = some recC ∧
    mapGet stateCollC.payment_records 0 = some recAltC ∧
    recAltC ≠ recC := by decide

end SecureTransactionSystem
